import Mathlib

/-!
Verification of the speed-test measurement engine (`src/lib.js`).

The development shallowly embeds the measurement core of the program:

* JavaScript numbers are modelled by `JVal` (a rational, `+Infinity`,
  `-Infinity`, or `NaN`); pure rational arithmetic is used on the paths
  where the code manipulates ordinary finite numbers.
* One resolved HTTPS transaction (the object the `request` promise in
  `src/lib.js` resolves with) is the record `Resp`.
* The network is abstracted as an oracle `ℕ → Except String Resp`:
  trial `i` of a runner either resolves with a `Resp` or rejects with an
  error message, exactly the two continuations of the `.then(ok, err)`
  calls in `measureLatency` / `measureDownload` / `measureUpload`.
* The statistics module (`stats.js`) is not part of the sources at hand;
  its functions are modelled from the specification (each such definition
  is marked `Modelled from the spec:`).  Everything else is translated
  from `src/lib.js`.
-/

namespace SpeedCF

/-- A JavaScript number: a finite rational, one of the two infinities, or
`NaN`.  Finite doubles are idealised as rationals. -/
inductive JVal where
  | num (q : ℚ)
  | posInf
  | negInf
  | nan
  deriving DecidableEq, Repr

/-- `true` exactly on finite numbers. -/
def JVal.isFiniteNum : JVal → Bool
  | .num _ => true
  | _ => false

/-- The character for a single decimal digit `n` (`n < 10`). -/
def digitChar (n : ℕ) : Char := Char.ofNat (48 + n)

/-- Decimal digits of `n`, most significant first; structural recursion on
`fuel` (any `fuel > n` suffices, see `natToStr`). -/
def natToStrCore : ℕ → ℕ → List Char
  | 0, _ => []
  | fuel + 1, n =>
    if n < 10 then [digitChar n]
    else natToStrCore fuel (n / 10) ++ [digitChar (n % 10)]

/-- Decimal rendering of a natural number. -/
def natToStr (n : ℕ) : String := String.mk (natToStrCore (n + 1) n)

/-- Two-digit zero-padded rendering of `r` (`r < 100`), as produced for
the fractional part of `toFixed(2)`. -/
def twoDecDigits (r : ℕ) : String :=
  (if r < 10 then "0" else "") ++ natToStr r

/-- `q.toFixed(2)` for a non-negative rational: round `100·q` to the
nearest integer (half away from zero) and print with two decimals. -/
def toFixed2Pos (q : ℚ) : String :=
  let n : ℕ := (⌊q * 100 + 1/2⌋).toNat
  natToStr (n / 100) ++ "." ++ twoDecDigits (n % 100)

/-- `q.toFixed(2)` for a rational. -/
def toFixed2 (q : ℚ) : String :=
  if q < 0 then "-" ++ toFixed2Pos (-q) else toFixed2Pos q

/-- `x.toFixed(2)` on a JavaScript number (`NaN` and the infinities
render as their JavaScript strings). -/
def JVal.toFixed2 : JVal → String
  | .num q => SpeedCF.toFixed2 q
  | .posInf => "Infinity"
  | .negInf => "-Infinity"
  | .nan => "NaN"

/-- Checks that a character list is `-?digits.dd`: an optional minus
sign, one or more digits, a dot, then exactly two digits. -/
def twoDecChars (l : List Char) : Bool :=
  let l1 := if l.headD ' ' = '-' then l.tail else l
  let ds := l1.takeWhile Char.isDigit
  let rest := l1.dropWhile Char.isDigit
  !ds.isEmpty &&
    match rest with
    | ['.', d1, d2] => d1.isDigit && d2.isDigit
    | _ => false

/-- A string is formatted with exactly two decimal places. -/
def twoDecFormat (s : String) : Bool := twoDecChars s.toList

/-! ### Statistics

`Math.min(...xs)` / `Math.max(...xs)` are taken from `measureLatency` in
`src/lib.js`; `average`, `median`, `jitter` and `quartile` live in the
absent `stats.js` and are modelled from the specification. -/

/-- `Math.min(...xs)`: `+Infinity` on an empty argument list. -/
def jsMin (l : List ℚ) : JVal :=
  match l with
  | [] => .posInf
  | x :: xs => .num (xs.foldl min x)

/-- `Math.max(...xs)`: `-Infinity` on an empty argument list. -/
def jsMax (l : List ℚ) : JVal :=
  match l with
  | [] => .negInf
  | x :: xs => .num (xs.foldl max x)

/-- Insert into an ascending list, keeping it ascending. -/
def insertAsc (x : ℚ) : List ℚ → List ℚ
  | [] => [x]
  | y :: ys => if x ≤ y then x :: y :: ys else y :: insertAsc x ys

/-- Ascending numeric sort (the model of `values.sort((a, b) => a - b)`
on a copy of the series). -/
def sortAsc : List ℚ → List ℚ
  | [] => []
  | x :: xs => insertAsc x (sortAsc xs)

/-- Modelled from the spec: `stats.average` (missing `stats.js`) —
arithmetic mean; undefined (`NaN`, as `0/0`) on an empty series. -/
def average (l : List ℚ) : JVal :=
  match l with
  | [] => .nan
  | _ => .num (l.sum / l.length)

/-- Modelled from the spec: `stats.median` (missing `stats.js`) — sorts
a copy; even length averages the two central elements, odd length takes
the central element; `NaN` on an empty series. -/
def median (l : List ℚ) : JVal :=
  match l with
  | [] => .nan
  | _ =>
    let s := sortAsc l
    let half := l.length / 2
    if l.length % 2 = 1 then .num (s.getD half 0)
    else .num ((s.getD (half - 1) 0 + s.getD half 0) / 2)

/-- Absolute differences of consecutive elements, in original order. -/
def consecDiffs : List ℚ → List ℚ
  | x :: y :: rest => |x - y| :: consecDiffs (y :: rest)
  | _ => []

/-- Modelled from the spec: `stats.jitter` (missing `stats.js`) — mean
of the absolute differences between consecutive original-order samples;
`0` for a single-element series. -/
def jitter (l : List ℚ) : JVal :=
  if l.length = 1 then .num 0 else average (consecDiffs l)

/-- Modelled from the spec: `stats.quartile` (missing `stats.js`) —
sorts a copy and linearly interpolates between the two nearest ranks at
position `p · (n − 1)`; `NaN` on an empty series. -/
def quartile (l : List ℚ) (p : ℚ) : JVal :=
  match l with
  | [] => .nan
  | _ =>
    let s := sortAsc l
    let pos : ℚ := p * (l.length - 1)
    let base : ℕ := (⌊pos⌋).toNat
    let rest : ℚ := pos - base
    if base + 1 < l.length then
      .num (s.getD base 0 + rest * (s.getD (base + 1) 0 - s.getD base 0))
    else .num (s.getD base 0)

/-! ### The timed transaction -/

/-- The object the `request` promise in `src/lib.js` resolves with: the
phase timestamps and the parsed `server-timing` duration.  The three
connection-phase timestamps stay `none` when their socket event does not
fire.  `serverTiming` is carried as a rational on the successful numeric
path; the `NaN` outcome of parsing is analysed separately via
`parseServerTiming`. -/
structure Resp where
  started : ℚ
  dnsLookup : Option ℚ := none
  tcpHandshake : Option ℚ := none
  sslHandshake : Option ℚ := none
  ttfb : ℚ
  ended : ℚ
  serverTiming : ℚ
  deriving DecidableEq, Repr

/-- `measureSpeed` from `src/lib.js`:
`(bytes * 8) / (duration / 1000) / 1e6`. -/
def measureSpeed (bytes duration : ℚ) : ℚ :=
  (bytes * 8) / (duration / 1000) / 1000000

/-! ### Parsing the server-timing header

`request` in `src/lib.js` resolves with
`serverTiming: parseFloat(res.headers["server-timing"].slice(22))`.
`jsParseFloat` models JavaScript `parseFloat`, `parseServerTiming` the
evaluation of that expression on an optional header value. -/

/-- Numeric value of a digit list, most significant first. -/
def digitsVal (l : List Char) : ℕ :=
  l.foldl (fun a c => a * 10 + (c.toNat - 48)) 0

/-- `splitOnChar` accumulator loop: `acc` holds the current field in
reverse. -/
def splitOnCharAux (sep : Char) : List Char → List Char → List (List Char)
  | [], acc => [acc.reverse]
  | c :: rest, acc =>
    if c = sep then acc.reverse :: splitOnCharAux sep rest []
    else splitOnCharAux sep rest (c :: acc)

/-- JavaScript `str.split(sep)` for a one-character separator, on the
character list of the string: always returns at least one (possibly
empty) field. -/
def splitOnChar (sep : Char) (l : List Char) : List (List Char) :=
  splitOnCharAux sep l []

/-- Exponent suffix of a float literal: `e`/`E`, an optional sign and a
digit run.  Returns `none` when no well-formed exponent follows (in
which case `parseFloat` keeps just the mantissa). -/
def parseExp (l : List Char) : Option ℤ :=
  match l with
  | 'e' :: rest | 'E' :: rest =>
    match rest with
    | '-' :: r2 =>
      let es := r2.takeWhile Char.isDigit
      if es.isEmpty then none else some (-(digitsVal es : ℤ))
    | '+' :: r2 =>
      let es := r2.takeWhile Char.isDigit
      if es.isEmpty then none else some (digitsVal es : ℤ)
    | r2 =>
      let es := r2.takeWhile Char.isDigit
      if es.isEmpty then none else some (digitsVal es : ℤ)
  | _ => none

/-- JavaScript `parseFloat` on a character list: skip leading
whitespace, read an optional sign, then either `Infinity` or the
longest decimal literal `digits[.digits][e[±]digits]`; `NaN` when no
digit is found. -/
def jsParseFloatChars (cs : List Char) : JVal :=
  let l := cs.dropWhile fun c =>
    c = ' ' || c = '\t' || c = '\n' || c = '\r'
  let sgnNeg : Bool := match l with
    | '-' :: _ => true
    | _ => false
  let l1 : List Char := match l with
    | '-' :: rest => rest
    | '+' :: rest => rest
    | _ => l
  if l1.take 8 = "Infinity".toList then
    if sgnNeg then .negInf else .posInf
  else
    let ds := l1.takeWhile Char.isDigit
    let l2 := l1.dropWhile Char.isDigit
    let fr : List Char := match l2 with
      | '.' :: r => r.takeWhile Char.isDigit
      | _ => []
    let l3 : List Char := match l2 with
      | '.' :: r => r.dropWhile Char.isDigit
      | _ => l2
    if ds.isEmpty && fr.isEmpty then .nan
    else
      let mant : ℚ :=
        (if sgnNeg then -1 else 1) *
          ((digitsVal ds : ℚ) + (digitsVal fr : ℚ) / (10 : ℚ) ^ fr.length)
      match parseExp l3 with
      | some e => .num (mant * (10 : ℚ) ^ e)
      | none => .num mant

/-- JavaScript `parseFloat` on a string. -/
def jsParseFloat (s : String) : JVal := jsParseFloatChars s.toList

/-- The `serverTiming` computation of the `end` handler in `request`
(`src/lib.js` line 107) on the optional `server-timing` header value:
an absent header makes `undefined.slice` throw a `TypeError` (modelled
as `Except.error`); a present header is sliced from offset 22
(character drop; identical to the code-unit slice on these ASCII
headers) and fed to `parseFloat`, and the promise resolves with
whatever number — possibly `NaN` — comes back. -/
def parseServerTiming (header : Option String) : Except String JVal :=
  match header with
  | none => .error "TypeError: Cannot read properties of undefined"
  | some s => .ok (jsParseFloatChars (s.toList.drop 22))

/-! ### The trial runners

Each runner in `src/lib.js` is a sequential `for` loop that awaits one
transaction per iteration and either pushes a measurement (fulfilled
promise) or logs `Error: ...` and continues (rejected promise).  The
network is the oracle `o : ℕ → Except String Resp`; the loops below
recurse on the remaining iteration count `n` with the current index `i`,
returning the measurement series together with the logged error lines. -/

/-- Loop body of `measureLatency` (`src/lib.js` lines 163–173): trial
`i` pushes `response.ttfb - response.started - response.serverTiming`
on success. -/
def latencyLoop (o : ℕ → Except String Resp) : ℕ → ℕ → List ℚ × List String
  | _, 0 => ([], [])
  | i, n + 1 =>
    let rest := latencyLoop o (i + 1) n
    match o i with
    | .ok r => ((r.ttfb - r.started - r.serverTiming) :: rest.1, rest.2)
    | .error e => (rest.1, ("Error: " ++ e) :: rest.2)

/-- The latency measurement series of `measureLatency`: 20 trials. -/
def latencyMeasurements (o : ℕ → Except String Resp) : List ℚ :=
  (latencyLoop o 0 20).1

/-- `measureLatency` (`src/lib.js` lines 160–176): the five-element
array `[min, max, average, median, jitter]` over the surviving trials. -/
def measureLatency (o : ℕ → Except String Resp) : List JVal :=
  let ms := latencyMeasurements o
  [jsMin ms, jsMax ms, average ms, median ms, jitter ms]

/-- Loop body of `measureDownload` (`src/lib.js` lines 181–191): trial
`i` pushes `measureSpeed(bytes, response.ended - response.ttfb)` on
success. -/
def downloadLoop (bytes : ℚ) (o : ℕ → Except String Resp) :
    ℕ → ℕ → List ℚ × List String
  | _, 0 => ([], [])
  | i, n + 1 =>
    let rest := downloadLoop bytes o (i + 1) n
    match o i with
    | .ok r => (measureSpeed bytes (r.ended - r.ttfb) :: rest.1, rest.2)
    | .error e => (rest.1, ("Error: " ++ e) :: rest.2)

/-- `measureDownload` (`src/lib.js` lines 178–194): measurement series
of `iterations` sequential download trials of `bytes` bytes. -/
def measureDownload (bytes : ℚ) (iterations : ℕ)
    (o : ℕ → Except String Resp) : List ℚ :=
  (downloadLoop bytes o 0 iterations).1

/-- The `console.error` lines emitted by one `measureDownload` run. -/
def measureDownloadLog (bytes : ℚ) (iterations : ℕ)
    (o : ℕ → Except String Resp) : List String :=
  (downloadLoop bytes o 0 iterations).2

/-- Loop body of `measureUpload` (`src/lib.js` lines 199–209): trial
`i` pushes `measureSpeed(bytes, response.serverTiming)` on success. -/
def uploadLoop (bytes : ℚ) (o : ℕ → Except String Resp) :
    ℕ → ℕ → List ℚ × List String
  | _, 0 => ([], [])
  | i, n + 1 =>
    let rest := uploadLoop bytes o (i + 1) n
    match o i with
    | .ok r => (measureSpeed bytes r.serverTiming :: rest.1, rest.2)
    | .error e => (rest.1, ("Error: " ++ e) :: rest.2)

/-- `measureUpload` (`src/lib.js` lines 196–212): measurement series of
`iterations` sequential upload trials of `bytes` bytes. -/
def measureUpload (bytes : ℚ) (iterations : ℕ)
    (o : ℕ → Except String Resp) : List ℚ :=
  (uploadLoop bytes o 0 iterations).1

/-! ### The orchestrator (`speedTest`, JSON mode)

`speedTest` (`src/lib.js` lines 265–316) runs the latency probe, five
download tiers, an overall download figure, three upload tiers and an
overall upload figure, accumulating the `results` object.  With the
`--json` flag, `flushing` is `false`, so `logSpeedTestResult` pushes one
`{size, speed}` entry per download tier, `logDownloadSpeed` /
`logUploadSpeed` push the `"overall"` entries, and nothing is printed
incrementally.  The embedding below builds that `results` object from
the location/trace strings and one trial oracle per series. -/

/-- One `{size, speed}` entry of `download_speeds` / `upload_speeds`. -/
structure SpeedEntry where
  size : String
  speed : String
  deriving DecidableEq, Repr

/-- The `latency` sub-object of `results`. -/
structure LatencyReport where
  min : String
  max : String
  average : String
  median : String
  jitter : String
  deriving DecidableEq, Repr

/-- The `results` object of `src/lib.js` as emitted in JSON mode. -/
structure Results where
  server_location : String
  your_ip : String
  latency : LatencyReport
  download_speeds : List SpeedEntry
  upload_speeds : List SpeedEntry
  deriving DecidableEq, Repr

/-- The download plan of `speedTest`: payload bytes, tier label, trial
count, in program order. -/
def downloadTiers : List (ℚ × String × ℕ) :=
  [(101000, "100kB", 10), (1001000, "1MB", 8), (10001000, "10MB", 6),
   (25001000, "25MB", 4), (100001000, "100MB", 1)]

/-- The upload plan of `speedTest`: payload bytes and trial count, in
program order. -/
def uploadTiers : List (ℚ × ℕ) :=
  [(11000, 10), (101000, 10), (1001000, 8)]

/-- `speedTest` in JSON mode (`src/lib.js` lines 265–316), with the
network abstracted: `city`, `colo`, `ip`, `loc` come from the two
out-of-scope metadata fetches, `latO` feeds the 20 latency trials and
`d1`–`d5` / `u1`–`u3` feed the download / upload tiers.  Per-tier upload
entries are never pushed — `logSpeedTestResult` is only called for
download tiers — so `upload_speeds` holds just the `"overall"` entry. -/
def speedTestResults (city colo ip loc : String)
    (latO d1 d2 d3 d4 d5 u1 u2 u3 : ℕ → Except String Resp) : Results :=
  let ms := latencyMeasurements latO
  let testDown1 := measureDownload 101000 10 d1
  let testDown2 := measureDownload 1001000 8 d2
  let testDown3 := measureDownload 10001000 6 d3
  let testDown4 := measureDownload 25001000 4 d4
  let testDown5 := measureDownload 100001000 1 d5
  let downloadTests :=
    testDown1 ++ testDown2 ++ testDown3 ++ testDown4 ++ testDown5
  let testUp1 := measureUpload 11000 10 u1
  let testUp2 := measureUpload 101000 10 u2
  let testUp3 := measureUpload 1001000 8 u3
  let uploadTests := testUp1 ++ testUp2 ++ testUp3
  { server_location := city ++ " (" ++ colo ++ ")"
    your_ip := ip ++ " (" ++ loc ++ ")"
    latency :=
      { min := (jsMin ms).toFixed2
        max := (jsMax ms).toFixed2
        average := (average ms).toFixed2
        median := (median ms).toFixed2
        jitter := (jitter ms).toFixed2 }
    download_speeds :=
      [⟨"100kB", (median testDown1).toFixed2⟩,
       ⟨"1MB", (median testDown2).toFixed2⟩,
       ⟨"10MB", (median testDown3).toFixed2⟩,
       ⟨"25MB", (median testDown4).toFixed2⟩,
       ⟨"100MB", (median testDown5).toFixed2⟩,
       ⟨"overall", (quartile downloadTests (9/10)).toFixed2⟩]
    upload_speeds :=
      [⟨"overall", (quartile uploadTests (9/10)).toFixed2⟩] }

/-! ### The trace parser (`fetchCfCdnCgiTrace`)

`parseCfCdnCgiTrace` in `src/lib.js` (lines 62–85) splits the trace
text on newlines, splits each line on `"="` into `j`, keeps the pair
`[j[0], j[1]]` when `j[1]` is defined, and `reduce`s the pairs into an
object by assignment.  JavaScript strings are carried as character
lists here; an object with string keys is modelled as an association
list without duplicate keys, where `objSet` is assignment (overwrite in
place, else append) and `objGet` is property lookup. -/

/-- A key or value of the trace object: a JavaScript string as a
character list. -/
abbrev JStr := List Char

/-- JavaScript object assignment `data[k] = v` on an association list
without duplicate keys. -/
def objSet : List (JStr × JStr) → JStr → JStr → List (JStr × JStr)
  | [], k, v => [(k, v)]
  | (k1, v1) :: rest, k, v =>
    if k1 = k then (k, v) :: rest else (k1, v1) :: objSet rest k v

/-- JavaScript property lookup `data[k]`. -/
def objGet (m : List (JStr × JStr)) (k : JStr) : Option JStr :=
  (m.find? fun p => p.1 == k).map fun p => p.2

/-- The `map` stage of `parseCfCdnCgiTrace`: `j = i.split("=")`, pair
`[j[0], j[1]]` (the second component is `none` when `j[1]` is
`undefined`). -/
def traceLinePair (i : JStr) : JStr × Option JStr :=
  let j := splitOnChar '=' i
  (j.headD [], j.get? 1)

/-- The `reduce` stage of `parseCfCdnCgiTrace`: skip a pair whose value
is `undefined`, otherwise assign. -/
def traceReduce (pairs : List (JStr × Option JStr)) : List (JStr × JStr) :=
  pairs.foldl
    (fun data kv =>
      match kv.2 with
      | none => data
      | some v => objSet data kv.1 v) []

/-- The trace parser inside `fetchCfCdnCgiTrace` (`src/lib.js` lines
63–82). -/
def parseCfCdnCgiTrace (text : String) : List (JStr × JStr) :=
  traceReduce ((splitOnChar '\n' text.toList).map traceLinePair)

/-- Specification view of the parsed lines: a line contributes the pair
(text before the first `=`, text between the first and second `=`) when
it contains a separator, and nothing otherwise. -/
def traceEntries (text : String) : List (JStr × JStr) :=
  (splitOnChar '\n' text.toList).filterMap fun line =>
    match splitOnChar '=' line with
    | k :: v :: _ => some (k, v)
    | _ => none

/-- Value of the last entry carrying key `k`, if any. -/
def lastValue : List (JStr × JStr) → JStr → Option JStr
  | [], _ => none
  | (k1, v) :: rest, k =>
    match lastValue rest k with
    | some v2 => some v2
    | none => if k1 == k then some v else none

/-- Entries contributed by the `map` stage pairs: a pair whose value is
`undefined` contributes nothing. -/
def entriesOf (pairs : List (JStr × Option JStr)) : List (JStr × JStr) :=
  pairs.filterMap fun kv => kv.2.map fun v => (kv.1, v)

/-! ### Output schema -/

/-- The `size` labels an entry of the JSON report may carry: the five
download tier labels of `speedTest` or `"overall"`. -/
def allowedSizes : List String :=
  ["100kB", "1MB", "10MB", "25MB", "100MB", "overall"]

/-- Checks the JSON-mode output schema of `results`: every latency
field is a two-decimal string and every speeds entry pairs an allowed
`size` label with a two-decimal `speed` string. -/
def schemaOK (r : Results) : Bool :=
  twoDecFormat r.latency.min && twoDecFormat r.latency.max &&
  twoDecFormat r.latency.average && twoDecFormat r.latency.median &&
  twoDecFormat r.latency.jitter &&
  (r.download_speeds.all fun e =>
    allowedSizes.contains e.size && twoDecFormat e.speed) &&
  (r.upload_speeds.all fun e =>
    allowedSizes.contains e.size && twoDecFormat e.speed)

/-! ### Concrete trial oracles used in witnesses -/

/-- The mocked transaction of the latency example: `started = 100`,
`firstByteAt = 150`, `completedAt = 200`, 10 ms server processing. -/
def trialResp : Resp :=
  { started := 100, ttfb := 150, ended := 200, serverTiming := 10 }

/-- Oracle whose first trial resolves with `trialResp` and whose other
trials reject. -/
def singleTrialOracle : ℕ → Except String Resp := fun i =>
  if i = 0 then .ok trialResp else .error "socket hang up"

/-- Oracle whose every trial rejects. -/
def allFailOracle : ℕ → Except String Resp := fun _ => .error "ECONNRESET"

/-- The mocked transaction of the download example: `firstByteAt = 100`,
`completedAt = 600` (a 500 ms transfer). -/
def dlResp : Resp :=
  { started := 0, ttfb := 100, ended := 600, serverTiming := 5 }

/-- Oracle whose every trial resolves with `dlResp`. -/
def dlOracle : ℕ → Except String Resp := fun _ => .ok dlResp

/-- An upload transaction whose client-observed intervals (950 ms from
first byte to completion, 1000 ms wall clock) differ from the
server-reported 250 ms processing duration. -/
def ulResp : Resp :=
  { started := 0, ttfb := 50, ended := 1000, serverTiming := 250 }

/-- Oracle whose every trial resolves with `ulResp`. -/
def ulOracle : ℕ → Except String Resp := fun _ => .ok ulResp

/-- Oracle failing every third trial (trials 2, 5, 8, …) and resolving
trial `i` with a transfer time of `i + 1` milliseconds otherwise. -/
def every3rdFails : ℕ → Except String Resp := fun i =>
  if (i + 1) % 3 = 0 then .error "tls handshake reset"
  else .ok { started := 0, ttfb := 0, ended := (i : ℚ) + 1, serverTiming := 0 }

/-! ## Characterizations of the trial-runner loops -/

/-- The latency loop collects, in trial order, exactly the formula
`ttfb − started − serverTiming` of the fulfilled trials. -/
theorem latencyLoop_fst_eq (o : ℕ → Except String Resp) :
    ∀ n i, (latencyLoop o i n).1 =
      (List.range' i n).filterMap fun j =>
        match o j with
        | .ok r => some (r.ttfb - r.started - r.serverTiming)
        | .error _ => none := by
  intro n
  induction n with
  | zero => intro i; rfl
  | succ n ih =>
    intro i
    cases h : o i <;>
      simp [latencyLoop, List.range'_succ, List.filterMap_cons, h, ih]

/-- `latencyMeasurements` over the 20 trial indices. -/
theorem latencyMeasurements_eq (o : ℕ → Except String Resp) :
    latencyMeasurements o = (List.range 20).filterMap fun j =>
      match o j with
      | .ok r => some (r.ttfb - r.started - r.serverTiming)
      | .error _ => none := by
  rw [latencyMeasurements, latencyLoop_fst_eq, List.range_eq_range']

/-- The download loop collects, in trial order, exactly
`measureSpeed bytes (ended − ttfb)` of the fulfilled trials. -/
theorem downloadLoop_fst_eq (bytes : ℚ) (o : ℕ → Except String Resp) :
    ∀ n i, (downloadLoop bytes o i n).1 =
      (List.range' i n).filterMap fun j =>
        match o j with
        | .ok r => some (measureSpeed bytes (r.ended - r.ttfb))
        | .error _ => none := by
  intro n
  induction n with
  | zero => intro i; rfl
  | succ n ih =>
    intro i
    cases h : o i <;>
      simp [downloadLoop, List.range'_succ, List.filterMap_cons, h, ih]

/-- The download loop logs, in trial order, exactly the errors of the
rejected trials. -/
theorem downloadLoop_snd_eq (bytes : ℚ) (o : ℕ → Except String Resp) :
    ∀ n i, (downloadLoop bytes o i n).2 =
      (List.range' i n).filterMap fun j =>
        match o j with
        | .ok _ => none
        | .error e => some ("Error: " ++ e) := by
  intro n
  induction n with
  | zero => intro i; rfl
  | succ n ih =>
    intro i
    cases h : o i <;>
      simp [downloadLoop, List.range'_succ, List.filterMap_cons, h, ih]

/-- `measureDownload` over the `n` trial indices. -/
theorem measureDownload_eq (bytes : ℚ) (n : ℕ) (o : ℕ → Except String Resp) :
    measureDownload bytes n o = (List.range n).filterMap fun j =>
      match o j with
      | .ok r => some (measureSpeed bytes (r.ended - r.ttfb))
      | .error _ => none := by
  rw [measureDownload, downloadLoop_fst_eq, List.range_eq_range']

/-- The upload loop collects, in trial order, exactly
`measureSpeed bytes serverTiming` of the fulfilled trials. -/
theorem uploadLoop_fst_eq (bytes : ℚ) (o : ℕ → Except String Resp) :
    ∀ n i, (uploadLoop bytes o i n).1 =
      (List.range' i n).filterMap fun j =>
        match o j with
        | .ok r => some (measureSpeed bytes r.serverTiming)
        | .error _ => none := by
  intro n
  induction n with
  | zero => intro i; rfl
  | succ n ih =>
    intro i
    cases h : o i <;>
      simp [uploadLoop, List.range'_succ, List.filterMap_cons, h, ih]

/-- `measureUpload` over the `n` trial indices. -/
theorem measureUpload_eq (bytes : ℚ) (n : ℕ) (o : ℕ → Except String Resp) :
    measureUpload bytes n o = (List.range n).filterMap fun j =>
      match o j with
      | .ok r => some (measureSpeed bytes r.serverTiming)
      | .error _ => none := by
  rw [measureUpload, uploadLoop_fst_eq, List.range_eq_range']

/-! ## Claims -/

/-- C1: every successful latency trial records
`firstByteAt − started − serverProcessingMs`, and with `started = 100`,
`firstByteAt = 150` and a 10 ms server-reported processing duration a
single successful trial yields a 40 ms measurement. -/
theorem latency_trial_is_ttfb_minus_started_minus_serverTiming :
    (∀ o : ℕ → Except String Resp, latencyMeasurements o =
      (List.range 20).filterMap fun j =>
        match o j with
        | .ok r => some (r.ttfb - r.started - r.serverTiming)
        | .error _ => none) ∧
    trialResp.started = 100 ∧ trialResp.ttfb = 150 ∧
    trialResp.serverTiming = 10 ∧
    latencyMeasurements singleTrialOracle = [40] := by
  refine ⟨latencyMeasurements_eq, rfl, rfl, rfl, ?_⟩
  norm_num [latencyMeasurements, latencyLoop, singleTrialOracle, trialResp]

/-- C2: the throughput formula is
`(byteCount × 8) / (durationMs / 1000) / 1 000 000`, and
`measureSpeed 1000000 1000 = 8`. -/
theorem measureSpeed_is_throughput_formula :
    (∀ bytes duration : ℚ,
      measureSpeed bytes duration =
        bytes * 8 / (duration / 1000) / 1000000) ∧
    measureSpeed 1000000 1000 = 8 :=
  ⟨fun _ _ => rfl, by norm_num [measureSpeed]⟩

/-- C4: the trial runner returns exactly the successful trials'
measurements in trial order, of length at most the requested count,
logging one `Error:` line per failed trial; when every trial fails it
returns the empty series (no exception escapes — the runner is a total
function), and 10 requested trials with every third failing yield the 7
successful measurements in order. -/
theorem trial_runner_skips_failed_trials (bytes : ℚ) (n : ℕ)
    (o : ℕ → Except String Resp) :
    (measureDownload bytes n o = (List.range n).filterMap fun j =>
      match o j with
      | .ok r => some (measureSpeed bytes (r.ended - r.ttfb))
      | .error _ => none) ∧
    (measureDownload bytes n o).length ≤ n ∧
    (measureDownloadLog bytes n o = (List.range n).filterMap fun j =>
      match o j with
      | .ok _ => none
      | .error e => some ("Error: " ++ e)) ∧
    ((∀ i, i < n → (o i).isOk = false) → measureDownload bytes n o = []) ∧
    measureDownload 1000 10 every3rdFails = [8, 4, 2, 8/5, 8/7, 1, 4/5] := by
  refine ⟨measureDownload_eq bytes n o, ?_, ?_, ?_, ?_⟩
  · rw [measureDownload_eq]
    calc (List.filterMap _ (List.range n)).length ≤ (List.range n).length :=
          List.length_filterMap_le _ _
      _ = n := List.length_range n
  · rw [measureDownloadLog, downloadLoop_snd_eq, List.range_eq_range']
  · intro h
    rw [measureDownload_eq, List.filterMap_eq_nil_iff]
    intro a ha
    have ha' := h a (List.mem_range.mp ha)
    cases hoa : o a with
    | ok r => rw [hoa] at ha'; simp [Except.isOk, Except.toBool] at ha'
    | error e => simp
  · norm_num [measureDownload, downloadLoop, every3rdFails, measureSpeed]

/-- C4 witness: with the always-failing oracle and 10 requested trials
the runner returns the empty series. -/
theorem trial_runner_skips_failed_trials_witness :
    (∀ i, i < 10 → (allFailOracle i).isOk = false) ∧
    measureDownload 101000 10 allFailOracle = [] :=
  ⟨by decide,
    (trial_runner_skips_failed_trials 101000 10 allFailOracle).2.2.2.1
      (by decide)⟩

/-- C5: every successful download trial records
`measureSpeed bytes (completedAt − firstByteAt)` — transfer time only —
and a 1 001 000-byte transfer with `firstByteAt = 100`,
`completedAt = 600` yields `2002/125 = 16.016` Mbps, which formats to
`"16.02"`. -/
theorem download_trial_uses_transfer_time :
    (∀ (bytes : ℚ) (n : ℕ) (o : ℕ → Except String Resp),
      measureDownload bytes n o = (List.range n).filterMap fun j =>
        match o j with
        | .ok r => some (measureSpeed bytes (r.ended - r.ttfb))
        | .error _ => none) ∧
    dlResp.ttfb = 100 ∧ dlResp.ended = 600 ∧
    measureDownload 1001000 1 dlOracle = [measureSpeed 1001000 500] ∧
    measureSpeed 1001000 500 = 2002 / 125 ∧
    toFixed2 (2002 / 125) = "16.02" := by
  refine ⟨measureDownload_eq, rfl, rfl, ?_, ?_, ?_⟩
  · norm_num [measureDownload, downloadLoop, dlOracle, dlResp]
  · norm_num [measureSpeed]
  · have h1 : ¬ ((2002 : ℚ) / 125 < 0) := by norm_num
    rw [toFixed2, if_neg h1, toFixed2Pos]
    norm_num
    decide

/-- C6: every successful upload trial records
`measureSpeed bytes serverProcessingMs` from the server-reported
duration, not from a client-observed interval: on a transaction with
250 ms of server processing but 950 ms first-byte-to-completion and
1000 ms wall clock, the trial records `measureSpeed bytes 250 = 32`
Mbps (for a 1 000 000-byte payload), which differs from the value of
either client-observed interval. -/
theorem upload_trial_uses_serverTiming :
    (∀ (bytes : ℚ) (n : ℕ) (o : ℕ → Except String Resp),
      measureUpload bytes n o = (List.range n).filterMap fun j =>
        match o j with
        | .ok r => some (measureSpeed bytes r.serverTiming)
        | .error _ => none) ∧
    ulResp.serverTiming = 250 ∧
    ulResp.ended - ulResp.ttfb = 950 ∧
    ulResp.ended - ulResp.started = 1000 ∧
    measureUpload 1000000 1 ulOracle = [measureSpeed 1000000 250] ∧
    measureSpeed 1000000 250 = 32 ∧
    measureSpeed 1000000 950 ≠ 32 ∧
    measureSpeed 1000000 1000 ≠ 32 := by
  refine ⟨measureUpload_eq, rfl, by norm_num [ulResp], by norm_num [ulResp],
    ?_, ?_, ?_, ?_⟩ <;>
    norm_num [measureUpload, uploadLoop, ulOracle, ulResp, measureSpeed]


/-- C3 counterexample: the header value `cfRequestDuration;dur=abc` is
present but carries no numeric duration at the expected position
(offset 22), yet the timed-transaction client does not fail the trial:
the transaction resolves, with `serverProcessingMs = NaN`. -/
theorem malformed_header_resolves_counterexample :
    jsParseFloatChars ("cfRequestDuration;dur=abc".toList.drop 22) = JVal.nan ∧
    parseServerTiming (some "cfRequestDuration;dur=abc") = .ok JVal.nan :=
  ⟨rfl, rfl⟩

/-- C3 amended: an absent `server-timing` header is an error (the
handler's `undefined.slice` throws a `TypeError`), but a present header
carrying no numeric duration at offset 22 does not fail the trial — the
transaction resolves with `serverProcessingMs = NaN`, a silently
substituted non-numeric value (never zero). -/
theorem serverTiming_parse_behavior :
    parseServerTiming none =
      .error "TypeError: Cannot read properties of undefined" ∧
    (∀ s : String, parseServerTiming (some s) =
      .ok (jsParseFloatChars (s.toList.drop 22))) ∧
    (∀ s : String, jsParseFloatChars (s.toList.drop 22) = JVal.nan →
      parseServerTiming (some s) = .ok JVal.nan ∧
      parseServerTiming (some s) ≠ .ok (JVal.num 0)) := by
  refine ⟨rfl, fun s => rfl, fun s h => ?_⟩
  have h2 : parseServerTiming (some s) = .ok JVal.nan := by
    show Except.ok (jsParseFloatChars (s.toList.drop 22)) = .ok JVal.nan
    rw [h]
  exact ⟨h2, by rw [h2]; simp⟩

/-- C3 amended witness: the malformed header `cfRequestDuration;dur=xy`
resolves with `NaN` and not with zero. -/
theorem serverTiming_parse_behavior_witness :
    jsParseFloatChars ("cfRequestDuration;dur=xy".toList.drop 22) = JVal.nan ∧
    parseServerTiming (some "cfRequestDuration;dur=xy") = .ok JVal.nan ∧
    parseServerTiming (some "cfRequestDuration;dur=xy") ≠ .ok (JVal.num 0) :=
  ⟨rfl, (serverTiming_parse_behavior.2.2 "cfRequestDuration;dur=xy" rfl).1,
   (serverTiming_parse_behavior.2.2 "cfRequestDuration;dur=xy" rfl).2⟩

/-- C9: when all 20 latency trials fail, `measureLatency` still
returns its five-element statistics array, every element a degenerate
non-finite sentinel (`+Infinity`, `-Infinity`, `NaN`, `NaN`, `NaN`),
without any exception, and the benchmark plan proceeds: the download
and upload sections of the report are computed exactly as they would be
under any other latency outcome. -/
theorem latency_total_failure_degenerate (o : ℕ → Except String Resp)
    (h : ∀ i, i < 20 → (o i).isOk = false) :
    measureLatency o = [.posInf, .negInf, .nan, .nan, .nan] ∧
    (measureLatency o).length = 5 ∧
    (∀ v ∈ measureLatency o, v.isFiniteNum = false) ∧
    (∀ city colo ip loc o2 d1 d2 d3 d4 d5 u1 u2 u3,
      (speedTestResults city colo ip loc o d1 d2 d3 d4 d5
          u1 u2 u3).download_speeds =
        (speedTestResults city colo ip loc o2 d1 d2 d3 d4 d5
          u1 u2 u3).download_speeds ∧
      (speedTestResults city colo ip loc o d1 d2 d3 d4 d5
          u1 u2 u3).upload_speeds =
        (speedTestResults city colo ip loc o2 d1 d2 d3 d4 d5
          u1 u2 u3).upload_speeds) := by
  have hms : latencyMeasurements o = [] := by
    rw [latencyMeasurements_eq, List.filterMap_eq_nil_iff]
    intro a ha
    have ha' := h a (List.mem_range.mp ha)
    cases hoa : o a with
    | ok r => rw [hoa] at ha'; simp [Except.isOk, Except.toBool] at ha'
    | error e => simp
  have hml : measureLatency o = [.posInf, .negInf, .nan, .nan, .nan] := by
    rw [measureLatency, hms]; rfl
  refine ⟨hml, by rw [hml]; rfl, ?_, ?_⟩
  · intro v hv
    rw [hml] at hv
    simp only [List.mem_cons, List.not_mem_nil, or_false] at hv
    rcases hv with rfl | rfl | rfl | rfl | rfl <;> rfl
  · intro city colo ip loc o2 d1 d2 d3 d4 d5 u1 u2 u3
    exact ⟨rfl, rfl⟩

/-- C9 witness: the always-failing oracle fails all 20 trials and
yields the degenerate statistics array. -/
theorem latency_total_failure_degenerate_witness :
    (∀ i, i < 20 → (allFailOracle i).isOk = false) ∧
    measureLatency allFailOracle = [.posInf, .negInf, .nan, .nan, .nan] :=
  ⟨by decide, (latency_total_failure_degenerate allFailOracle (by decide)).1⟩


/-- Lookup in the empty object. -/
theorem objGet_nil (k1 : JStr) : objGet [] k1 = none := rfl

/-- Lookup steps through one entry. -/
theorem objGet_cons (a b : JStr) (l : List (JStr × JStr)) (k1 : JStr) :
    objGet ((a, b) :: l) k1 = if a = k1 then some b else objGet l k1 := by
  by_cases h : a = k1
  · subst h; simp [objGet, List.find?_cons]
  · simp [objGet, List.find?_cons, beq_false_of_ne h, h]

/-- Assignment then lookup: the assigned key reads back the new value,
any other key is untouched. -/
theorem objGet_objSet (m : List (JStr × JStr)) (k v k1 : JStr) :
    objGet (objSet m k v) k1 = if k1 = k then some v else objGet m k1 := by
  induction m with
  | nil =>
    show objGet [(k, v)] k1 = _
    rw [objGet_cons, objGet_nil]
    by_cases hk : k1 = k
    · simp [hk]
    · rw [if_neg fun h => hk h.symm, if_neg hk]
  | cons p rest ih =>
    obtain ⟨k2, v2⟩ := p
    by_cases h2 : k2 = k
    · subst h2
      rw [show objSet ((k2, v2) :: rest) k2 v = (k2, v) :: rest from by
        simp [objSet]]
      rw [objGet_cons, objGet_cons]
      by_cases hk : k1 = k2
      · simp [hk]
      · rw [if_neg fun h => hk h.symm, if_neg hk, if_neg fun h => hk h.symm]
    · rw [show objSet ((k2, v2) :: rest) k v = (k2, v2) :: objSet rest k v from by
        simp [objSet, h2]]
      rw [objGet_cons, objGet_cons, ih]
      by_cases hk : k2 = k1
      · subst hk
        rw [if_pos rfl, if_pos rfl, if_neg fun h => h2 h]
      · rw [if_neg hk, if_neg hk]

/-- The `reduce` stage, started from any object `m`: a key reads back
the last defined value among the pairs, falling back to `m`. -/
theorem objGet_traceStep (k : JStr) :
    ∀ (pairs : List (JStr × Option JStr)) (m : List (JStr × JStr)),
      objGet (pairs.foldl (fun data kv =>
        match kv.2 with
        | none => data
        | some v => objSet data kv.1 v) m) k =
      match lastValue (entriesOf pairs) k with
      | some v => some v
      | none => objGet m k := by
  intro pairs
  induction pairs with
  | nil => intro m; rfl
  | cons kv rest ih =>
    obtain ⟨k1, wo⟩ := kv
    intro m
    cases wo with
    | none =>
      simp only [List.foldl_cons, ih, entriesOf, List.filterMap_cons,
        Option.map_none']
    | some v =>
      simp only [List.foldl_cons, ih, entriesOf, List.filterMap_cons,
        Option.map_some']
      rw [lastValue]
      cases h : lastValue (List.filterMap (fun kv =>
          Option.map (fun v => (kv.1, v)) kv.2) rest) k with
      | some v2 => simp [h]
      | none =>
        simp only [h, objGet_objSet]
        by_cases hk : k1 = k
        · subst hk; simp
        · rw [if_neg fun h => hk h.symm, beq_false_of_ne hk]
          simp

/-- The pairs kept by the `map`/skip stages are exactly the
(before-first-`=`, between-first-and-second-`=`) cuts of the lines that
contain a separator. -/
theorem entriesOf_traceLines (lines : List JStr) :
    entriesOf (lines.map traceLinePair) = lines.filterMap fun line =>
      match splitOnChar '=' line with
      | k :: v :: _ => some (k, v)
      | _ => none := by
  rw [entriesOf, List.filterMap_map]
  congr 1
  funext line
  rcases h : splitOnChar '=' line with _ | ⟨a, _ | ⟨b, t⟩⟩ <;>
    simp [Function.comp, traceLinePair, h]

/-- C10: looking up `k` in the parsed trace returns the value of the
last line of the form `k=v` — the text between the line's first and
second `=` — and lines without `=` contribute no entry.  Concretely, on
`ip=1.2.3.4\nfoo\nip=5.6.7.8\nloc=US=extra` the key `ip` reads the
later value `5.6.7.8`, the separator-less line `foo` contributes no
entry, and `loc` reads `US`, the text between the first and second
`=`. -/
theorem trace_parser_characterization :
    (∀ (text : String) (k : JStr),
      objGet (parseCfCdnCgiTrace text) k = lastValue (traceEntries text) k) ∧
    objGet (parseCfCdnCgiTrace "ip=1.2.3.4\nfoo\nip=5.6.7.8\nloc=US=extra")
      "ip".toList = some "5.6.7.8".toList ∧
    objGet (parseCfCdnCgiTrace "ip=1.2.3.4\nfoo\nip=5.6.7.8\nloc=US=extra")
      "foo".toList = none ∧
    objGet (parseCfCdnCgiTrace "ip=1.2.3.4\nfoo\nip=5.6.7.8\nloc=US=extra")
      "loc".toList = some "US".toList := by
  refine ⟨?_, by decide, by decide, by decide⟩
  intro text k
  rw [parseCfCdnCgiTrace, traceReduce, objGet_traceStep, entriesOf_traceLines,
    traceEntries]
  cases h : lastValue ((splitOnChar '\n' text.toList).filterMap fun line =>
      match splitOnChar '=' line with
      | k :: v :: _ => some (k, v)
      | _ => none) k <;> simp [h, objGet_nil]


/-- C7: the orchestrator's download plan is exactly
100kB ×10, 1MB ×8, 10MB ×6, 25MB ×4, 100MB ×1 followed by the upload
plan 11kB ×10, 100kB ×10, 1MB ×8; within each sweep payload sizes
strictly grow while trial counts never increase; and the overall
download and upload figures are the 0.9-quantile of the concatenation
of the tiers' series in tier order. -/
theorem orchestrator_tier_plan :
    downloadTiers =
      [(101000, "100kB", 10), (1001000, "1MB", 8), (10001000, "10MB", 6),
       (25001000, "25MB", 4), (100001000, "100MB", 1)] ∧
    uploadTiers = [(11000, 10), (101000, 10), (1001000, 8)] ∧
    List.Chain' (fun a b => a.1 < b.1 ∧ b.2.2 ≤ a.2.2) downloadTiers ∧
    List.Chain' (fun a b => a.1 < b.1 ∧ b.2 ≤ a.2) uploadTiers ∧
    (∀ city colo ip loc latO d1 d2 d3 d4 d5 u1 u2 u3,
      (speedTestResults city colo ip loc latO d1 d2 d3 d4 d5
          u1 u2 u3).download_speeds =
        [⟨"100kB", (median (measureDownload 101000 10 d1)).toFixed2⟩,
         ⟨"1MB", (median (measureDownload 1001000 8 d2)).toFixed2⟩,
         ⟨"10MB", (median (measureDownload 10001000 6 d3)).toFixed2⟩,
         ⟨"25MB", (median (measureDownload 25001000 4 d4)).toFixed2⟩,
         ⟨"100MB", (median (measureDownload 100001000 1 d5)).toFixed2⟩,
         ⟨"overall",
          (quartile
            (measureDownload 101000 10 d1 ++ measureDownload 1001000 8 d2 ++
             measureDownload 10001000 6 d3 ++ measureDownload 25001000 4 d4 ++
             measureDownload 100001000 1 d5) (9/10)).toFixed2⟩] ∧
      (speedTestResults city colo ip loc latO d1 d2 d3 d4 d5
          u1 u2 u3).upload_speeds =
        [⟨"overall",
          (quartile
            (measureUpload 11000 10 u1 ++ measureUpload 101000 10 u2 ++
             measureUpload 1001000 8 u3) (9/10)).toFixed2⟩]) := by
  refine ⟨rfl, rfl, ?_, ?_, ?_⟩
  · norm_num [downloadTiers, List.chain'_cons]
  · norm_num [uploadTiers, List.chain'_cons]
  · intro city colo ip loc latO d1 d2 d3 d4 d5 u1 u2 u3
    exact ⟨rfl, rfl⟩

/-- `digitChar n` is a digit character for `n < 10`. -/
theorem digitChar_isDigit (n : ℕ) (h : n < 10) : (digitChar n).isDigit = true := by
  interval_cases n <;> decide

/-- A digit character is not the minus sign. -/
theorem isDigit_ne_minus (c : Char) (h : c.isDigit = true) : ¬ c = '-' := by
  intro hq
  rw [hq] at h
  exact absurd h (by decide)

/-- Every character emitted by `natToStrCore` is a digit. -/
theorem natToStrCore_all_digits :
    ∀ fuel n, (natToStrCore fuel n).all Char.isDigit = true := by
  intro fuel
  induction fuel with
  | zero => intro n; rfl
  | succ fuel ih =>
    intro n
    by_cases h : n < 10
    · simp [natToStrCore, h, digitChar_isDigit n h]
    · simp [natToStrCore, h, List.all_append, ih,
        digitChar_isDigit (n % 10) (Nat.mod_lt n (by norm_num))]

/-- With nonzero fuel, `natToStrCore` emits at least one digit. -/
theorem natToStrCore_ne_nil (fuel n : ℕ) : natToStrCore (fuel + 1) n ≠ [] := by
  by_cases h : n < 10
  · simp [natToStrCore, h]
  · simp [natToStrCore, h]

/-- The characters of `natToStr`. -/
theorem natToStr_data (n : ℕ) : (natToStr n).data = natToStrCore (n + 1) n := rfl

/-- For `r < 100`, `twoDecDigits r` is exactly two digit characters. -/
theorem twoDecDigits_data (r : ℕ) (h : r < 100) :
    ∃ d1 d2, (twoDecDigits r).data = [d1, d2] ∧
      d1.isDigit = true ∧ d2.isDigit = true := by
  by_cases h10 : r < 10
  · refine ⟨'0', digitChar r, ?_, by decide, digitChar_isDigit r h10⟩
    show ((if r < 10 then "0" else "") ++ natToStr r).data = _
    rw [if_pos h10, String.data_append]
    have hc : natToStrCore (r + 1) r = [digitChar r] := by
      simp [natToStrCore, h10]
    simp [natToStr, hc]
  · refine ⟨digitChar (r / 10), digitChar (r % 10), ?_,
      digitChar_isDigit _ (by omega),
      digitChar_isDigit _ (Nat.mod_lt r (by norm_num))⟩
    show ((if r < 10 then "0" else "") ++ natToStr r).data = _
    rw [if_neg h10, String.data_append]
    obtain ⟨m, rfl⟩ : ∃ m, r = m + 1 := ⟨r - 1, by omega⟩
    have h1 : natToStrCore (m + 1 + 1) (m + 1) =
        natToStrCore (m + 1) ((m + 1) / 10) ++ [digitChar ((m + 1) % 10)] := by
      simp [natToStrCore, h10]
    have h2 : natToStrCore (m + 1) ((m + 1) / 10) =
        [digitChar ((m + 1) / 10)] := by
      simp [natToStrCore, show (m + 1) / 10 < 10 by omega]
    simp [natToStr, h1, h2]

/-- Scanning digits stops exactly at the decimal point. -/
theorem takeWhile_digits_append (ds rest : List Char)
    (h : ds.all Char.isDigit = true) :
    (ds ++ '.' :: rest).takeWhile Char.isDigit = ds ∧
    (ds ++ '.' :: rest).dropWhile Char.isDigit = '.' :: rest := by
  induction ds with
  | nil => constructor <;> simp [List.takeWhile_cons, List.dropWhile_cons]
  | cons c cs ih =>
    simp only [List.all_cons, Bool.and_eq_true] at h
    obtain ⟨hc, hcs⟩ := h
    have hr := ih hcs
    simp [List.takeWhile_cons, List.dropWhile_cons, hc, hr.1, hr.2]

/-- A nonempty digit run, a dot and two digits pass the two-decimal
format check. -/
theorem twoDecChars_of_parts (ds : List Char) (d1 d2 : Char) (hne : ds ≠ [])
    (h : ds.all Char.isDigit = true)
    (h1 : d1.isDigit = true) (h2 : d2.isDigit = true) :
    twoDecChars (ds ++ '.' :: [d1, d2]) = true := by
  cases ds with
  | nil => exact absurd rfl hne
  | cons c cs =>
    have hc : c.isDigit = true := by
      simp only [List.all_cons, Bool.and_eq_true] at h
      exact h.1
    obtain ⟨hta, hdr⟩ := takeWhile_digits_append (c :: cs) [d1, d2] h
    rw [twoDecChars]
    simp only [List.cons_append, List.headD_cons,
      if_neg (isDigit_ne_minus c hc)]
    simp only [List.cons_append] at hta hdr
    rw [hta, hdr]
    simp [h1, h2]

/-- `toFixed2Pos` always renders as digits, a dot and two digits. -/
theorem toFixed2Pos_parts (q : ℚ) :
    ∃ ds d1 d2, (toFixed2Pos q).data = ds ++ '.' :: [d1, d2] ∧
      ds ≠ [] ∧ ds.all Char.isDigit = true ∧
      d1.isDigit = true ∧ d2.isDigit = true := by
  obtain ⟨d1, d2, hd, h1, h2⟩ :=
    twoDecDigits_data ((⌊q * 100 + 1/2⌋).toNat % 100) (Nat.mod_lt _ (by norm_num))
  refine ⟨(natToStr ((⌊q * 100 + 1/2⌋).toNat / 100)).data, d1, d2, ?_, ?_, ?_,
    h1, h2⟩
  · show (natToStr _ ++ "." ++ twoDecDigits _).data = _
    rw [String.data_append, String.data_append, hd]
    simp [List.append_assoc]
  · rw [natToStr_data]; exact natToStrCore_ne_nil _ _
  · rw [natToStr_data]; exact natToStrCore_all_digits _ _

/-- A leading minus sign is consumed by the format check when the rest
starts with a digit. -/
theorem twoDecChars_cons_minus (l : List Char)
    (h : (l.headD ' ').isDigit = true) :
    twoDecChars ('-' :: l) = twoDecChars l := by
  rw [twoDecChars, twoDecChars]
  simp only [List.headD_cons, List.tail_cons, if_true]
  rw [if_neg (isDigit_ne_minus _ h)]

/-- Every `toFixed(2)` rendering of a finite number passes the
two-decimal format check. -/
theorem twoDecFormat_toFixed2 (q : ℚ) : twoDecFormat (toFixed2 q) = true := by
  rw [twoDecFormat, toFixed2]
  by_cases hq : q < 0
  · rw [if_pos hq]
    obtain ⟨ds, d1, d2, hdata, hne, hall, h1, h2⟩ := toFixed2Pos_parts (-q)
    have hmk : ("-" ++ toFixed2Pos (-q)).toList
        = '-' :: (toFixed2Pos (-q)).data := by
      show ("-" ++ toFixed2Pos (-q)).data = _
      rw [String.data_append]
      rfl
    rw [hmk, hdata]
    have hhead : ((ds ++ '.' :: [d1, d2]).headD ' ').isDigit = true := by
      cases ds with
      | nil => exact absurd rfl hne
      | cons c cs =>
        simp only [List.cons_append, List.headD_cons]
        simp only [List.all_cons, Bool.and_eq_true] at hall
        exact hall.1
    rw [twoDecChars_cons_minus _ hhead]
    exact twoDecChars_of_parts ds d1 d2 hne hall h1 h2
  · rw [if_neg hq]
    obtain ⟨ds, d1, d2, hdata, hne, hall, h1, h2⟩ := toFixed2Pos_parts q
    have hl : (toFixed2Pos q).toList = ds ++ '.' :: [d1, d2] := hdata
    rw [hl]
    exact twoDecChars_of_parts ds d1 d2 hne hall h1 h2



/-- `Math.min` of a nonempty series is a finite number. -/
theorem jsMin_isNum (l : List ℚ) (h : l ≠ []) : ∃ q, jsMin l = .num q := by
  cases l with
  | nil => exact absurd rfl h
  | cons x xs => exact ⟨_, rfl⟩

/-- `Math.max` of a nonempty series is a finite number. -/
theorem jsMax_isNum (l : List ℚ) (h : l ≠ []) : ∃ q, jsMax l = .num q := by
  cases l with
  | nil => exact absurd rfl h
  | cons x xs => exact ⟨_, rfl⟩

/-- The mean of a nonempty series is a finite number. -/
theorem average_isNum (l : List ℚ) (h : l ≠ []) : ∃ q, average l = .num q := by
  cases l with
  | nil => exact absurd rfl h
  | cons x xs => exact ⟨_, rfl⟩

/-- The median of a nonempty series is a finite number. -/
theorem median_isNum (l : List ℚ) (h : l ≠ []) : ∃ q, median l = .num q := by
  cases l with
  | nil => exact absurd rfl h
  | cons x xs =>
    simp only [median]
    split
    · exact ⟨_, rfl⟩
    · exact ⟨_, rfl⟩

/-- The jitter of a nonempty series is a finite number. -/
theorem jitter_isNum (l : List ℚ) (h : l ≠ []) : ∃ q, jitter l = .num q := by
  cases l with
  | nil => exact absurd rfl h
  | cons x xs =>
    cases xs with
    | nil => exact ⟨0, by simp [jitter]⟩
    | cons y ys =>
      simp only [jitter]
      split
      · exact ⟨0, rfl⟩
      · exact ⟨_, rfl⟩

/-- Any quantile of a nonempty series is a finite number. -/
theorem quartile_isNum (l : List ℚ) (p : ℚ) (h : l ≠ []) :
    ∃ q, quartile l p = .num q := by
  cases l with
  | nil => exact absurd rfl h
  | cons x xs =>
    simp only [quartile]
    split
    · exact ⟨_, rfl⟩
    · exact ⟨_, rfl⟩



/-- C8: in JSON mode, as long as every measurement series is nonempty,
the emitted report has string fields `server_location` and `your_ip`
built from the location data, five latency statistics each formatted to
exactly two decimal places, and `download_speeds` / `upload_speeds`
entries pairing a tier label or `"overall"` with a speed string
formatted to exactly two decimal places. -/
theorem json_report_schema (city colo ip loc : String)
    (latO d1 d2 d3 d4 d5 u1 u2 u3 : ℕ → Except String Resp)
    (hlat : latencyMeasurements latO ≠ [])
    (hd1 : measureDownload 101000 10 d1 ≠ [])
    (hd2 : measureDownload 1001000 8 d2 ≠ [])
    (hd3 : measureDownload 10001000 6 d3 ≠ [])
    (hd4 : measureDownload 25001000 4 d4 ≠ [])
    (hd5 : measureDownload 100001000 1 d5 ≠ [])
    (hu : measureUpload 11000 10 u1 ++ measureUpload 101000 10 u2 ++
      measureUpload 1001000 8 u3 ≠ []) :
    schemaOK (speedTestResults city colo ip loc latO d1 d2 d3 d4 d5 u1 u2 u3)
      = true ∧
    (speedTestResults city colo ip loc latO d1 d2 d3 d4 d5
      u1 u2 u3).server_location = city ++ " (" ++ colo ++ ")" ∧
    (speedTestResults city colo ip loc latO d1 d2 d3 d4 d5
      u1 u2 u3).your_ip = ip ++ " (" ++ loc ++ ")" := by
  refine ⟨?_, rfl, rfl⟩
  obtain ⟨qmin, hmin⟩ := jsMin_isNum _ hlat
  obtain ⟨qmax, hmax⟩ := jsMax_isNum _ hlat
  obtain ⟨qavg, havg⟩ := average_isNum _ hlat
  obtain ⟨qmed, hmed⟩ := median_isNum _ hlat
  obtain ⟨qjit, hjit⟩ := jitter_isNum _ hlat
  obtain ⟨m1, hm1⟩ := median_isNum _ hd1
  obtain ⟨m2, hm2⟩ := median_isNum _ hd2
  obtain ⟨m3, hm3⟩ := median_isNum _ hd3
  obtain ⟨m4, hm4⟩ := median_isNum _ hd4
  obtain ⟨m5, hm5⟩ := median_isNum _ hd5
  have hdall : measureDownload 101000 10 d1 ++ measureDownload 1001000 8 d2 ++
      measureDownload 10001000 6 d3 ++ measureDownload 25001000 4 d4 ++
      measureDownload 100001000 1 d5 ≠ [] := by
    intro hcontra
    simp only [List.append_eq_nil] at hcontra
    exact hd1 hcontra.1.1.1.1
  obtain ⟨qd, hqd⟩ := quartile_isNum _ (9/10) hdall
  obtain ⟨qu, hqu⟩ := quartile_isNum _ (9/10) hu
  simp only [schemaOK, speedTestResults, hmin, hmax, havg, hmed, hjit,
    hm1, hm2, hm3, hm4, hm5, hqd, hqu, JVal.toFixed2, twoDecFormat_toFixed2,
    List.all_cons, List.all_nil, Bool.and_true, Bool.true_and]
  decide



/-- C8 witness: a run in which every trial resolves with `dlResp`
satisfies the JSON output schema. -/
theorem json_report_schema_witness :
    latencyMeasurements dlOracle ≠ [] ∧
    schemaOK (speedTestResults "Dallas" "DFW" "203.0.113.7" "US"
      dlOracle dlOracle dlOracle dlOracle dlOracle dlOracle
      dlOracle dlOracle dlOracle) = true := by
  have h0 : latencyMeasurements dlOracle ≠ [] := by
    norm_num [latencyMeasurements, latencyLoop, dlOracle, dlResp]
    simp
  have hD : ∀ n, n ≠ 0 → ∀ b : ℚ, measureDownload b n dlOracle ≠ [] := by
    intro n hn b
    rw [measureDownload_eq]
    cases n with
    | zero => exact absurd rfl hn
    | succ m => simp [List.range_succ_eq_map, dlOracle]
  have hU : measureUpload 11000 10 dlOracle ++ measureUpload 101000 10 dlOracle
      ++ measureUpload 1001000 8 dlOracle ≠ [] := by
    intro hcontra
    simp only [List.append_eq_nil] at hcontra
    have := hcontra.1.1
    rw [measureUpload_eq] at this
    simp [List.range_succ_eq_map, dlOracle] at this
  exact ⟨h0, (json_report_schema "Dallas" "DFW" "203.0.113.7" "US"
    dlOracle dlOracle dlOracle dlOracle dlOracle dlOracle
    dlOracle dlOracle dlOracle h0
    (hD 10 (by norm_num) 101000) (hD 8 (by norm_num) 1001000)
    (hD 6 (by norm_num) 10001000) (hD 4 (by norm_num) 25001000)
    (hD 1 (by norm_num) 100001000) hU).1⟩

end SpeedCF
